import Mathlib

/-!
Shallow embedding of the Game of Life core from `src/main.py`
(`get_neighbour_set` and `next_board_state`), together with proofs of the
specified properties of those two functions.

Conventions of the embedding:
* a Python `(int, int)` tuple is a `Cell := Int × Int`;
* a Python `set` of cells is a `Finset Cell`;
* `range(a, b)` is `pyRange a b`, `itertools.product` on two lists is
  `listProd`;
* `set.remove` may raise `KeyError`, so `get_neighbour_set` returns
  `Except String (Finset Cell)`;
* the `for` loops of `next_board_state` walk the elements of a set in an
  unspecified order; they are embedded as structural recursion over an
  explicit list enumerating the set, and the set-level function
  `next_board_state` is proved to agree with the loop for every enumeration.
-/

abbrev Cell : Type := Int × Int

/-- Python `range(lo, hi)` as a list of integers: `[lo, lo+1, ..., hi-1]`,
empty when `hi ≤ lo`. -/
def pyRange (lo hi : Int) : List Int :=
  (List.range (hi - lo).toNat).map (fun i : Nat => lo + (i : Int))

/-- `itertools.product(xs, ys)` as a list of pairs. -/
def listProd (xs ys : List Int) : List Cell :=
  xs.flatMap (fun x => ys.map (fun y => (x, y)))

/-- The list
`itertools.product([cell_x + mod for mod in range(-cell_range, cell_range+1)],
                   [cell_y + mod for mod in range(-cell_range, cell_range+1)])`
from `get_neighbour_set` (src/main.py lines 42-47). -/
def neighbourProductList (cell : Cell) (cell_range : Int) : List Cell :=
  listProd
    ((pyRange (-cell_range) (cell_range + 1)).map (fun m => cell.1 + m))
    ((pyRange (-cell_range) (cell_range + 1)).map (fun m => cell.2 + m))

/-- `get_neighbour_set` (src/main.py lines 37-49): build the product set,
then `neighbour_set.remove(cell)`, which raises `KeyError` when `cell` is
not a member. -/
def get_neighbour_set (cell : Cell) (cell_range : Int := 1) :
    Except String (Finset Cell) :=
  let neighbour_set := (neighbourProductList cell cell_range).toFinset
  if cell ∈ neighbour_set then Except.ok (neighbour_set.erase cell)
  else Except.error "KeyError"

/-- The radius-1 neighbour set that `get_neighbour_set cell` successfully
returns; the default-radius call never fails (`neighbourSet1_ok` below). -/
def neighbourSet1 (cell : Cell) : Finset Cell :=
  (neighbourProductList cell 1).toFinset.erase cell

/-- An enumeration of `neighbourSet1 cell`, used to embed the iteration
`for neighbour_cell in neighbour_set` of src/main.py line 25. -/
def neighbourList1 (cell : Cell) : List Cell :=
  (neighbourProductList cell 1).filter (fun p => p ≠ cell)

/-- The inner loop of `next_board_state` (src/main.py lines 25-32): for each
neighbour of a live cell, count that neighbour's own live neighbours and add
it to `next_cells` when the count is exactly 3.  The test
`if neighbour_cell in live_cells or neighbour_cell in next_cells: pass`
(lines 27-28) has an empty body and hence no effect, so it leaves no trace
here. -/
def birth_loop (live_cells : Finset Cell) :
    List Cell → Finset Cell → Except String (Finset Cell)
  | [], next_cells => Except.ok next_cells
  | neighbour_cell :: rest, next_cells =>
    match get_neighbour_set neighbour_cell with
    | Except.error e => Except.error e
    | Except.ok neighbour_neighbour_set =>
      birth_loop live_cells rest
        (if (neighbour_neighbour_set ∩ live_cells).card = 3 then
          insert neighbour_cell next_cells
        else next_cells)

/-- The outer loop of `next_board_state` (src/main.py lines 16-32): for each
live cell, keep it when its live-neighbour count is in `[2, 3]`, then run the
inner birth loop over its neighbours. -/
def next_board_state_loop (live_cells : Finset Cell) :
    List Cell → Finset Cell → Except String (Finset Cell)
  | [], next_cells => Except.ok next_cells
  | live_cell :: rest, next_cells =>
    match get_neighbour_set live_cell with
    | Except.error e => Except.error e
    | Except.ok neighbour_set =>
      match
        birth_loop live_cells (neighbourList1 live_cell)
          (if (neighbour_set ∩ live_cells).card ∈ [2, 3] then
            insert live_cell next_cells
          else next_cells)
      with
      | Except.error e => Except.error e
      | Except.ok next_cells => next_board_state_loop live_cells rest next_cells

/-- `next_board_state` (src/main.py lines 12-34) run on one particular
iteration order `l` of the input set: membership tests are against the set
`l.toFinset`, the loop walks `l`, and `next_cells` starts empty. -/
def next_board_state_iter (l : List Cell) : Except String (Finset Cell) :=
  next_board_state_loop l.toFinset l ∅

/-- The value `next_board_state` computes, at the level of sets: survivors
(live cells whose live-neighbour count is in `[2, 3]`) together with the
births collected by the inner loop (neighbours of live cells whose own
live-neighbour count is exactly 3).  `next_board_state_iter_eq` proves that
every iteration order of the loop produces exactly this set. -/
def next_board_state (live_cells : Finset Cell) : Finset Cell :=
  live_cells.filter
      (fun live_cell => (neighbourSet1 live_cell ∩ live_cells).card ∈ [2, 3])
    ∪ live_cells.biUnion
      (fun live_cell =>
        (neighbourSet1 live_cell).filter
          (fun neighbour_cell =>
            (neighbourSet1 neighbour_cell ∩ live_cells).card = 3))

/-! ### Characterisation of `get_neighbour_set` -/

lemma mem_pyRange {lo hi a : Int} : a ∈ pyRange lo hi ↔ lo ≤ a ∧ a < hi := by
  unfold pyRange
  rw [List.mem_map]
  constructor
  · rintro ⟨i, hmem, rfl⟩
    rw [List.mem_range] at hmem
    omega
  · intro h
    refine ⟨(a - lo).toNat, ?_, ?_⟩
    · rw [List.mem_range]
      omega
    · omega

lemma listProd_eq_product (xs ys : List Int) : listProd xs ys = xs.product ys := rfl

lemma mem_listProd {xs ys : List Int} {p : Cell} :
    p ∈ listProd xs ys ↔ p.1 ∈ xs ∧ p.2 ∈ ys := by
  obtain ⟨a, b⟩ := p
  rw [listProd_eq_product]
  exact List.mem_product

lemma mem_neighbourProductList {cell p : Cell} {r : Int} :
    p ∈ neighbourProductList cell r ↔
      cell.1 - r ≤ p.1 ∧ p.1 ≤ cell.1 + r ∧ cell.2 - r ≤ p.2 ∧ p.2 ≤ cell.2 + r := by
  simp only [neighbourProductList, mem_listProd, List.mem_map, mem_pyRange]
  constructor
  · rintro ⟨⟨mx, hmx, hx⟩, my, hmy, hy⟩
    omega
  · rintro ⟨h1, h2, h3, h4⟩
    exact ⟨⟨p.1 - cell.1, by omega, by omega⟩, ⟨p.2 - cell.2, by omega, by omega⟩⟩

lemma pyRange_of_le {lo hi : Int} (h : hi ≤ lo) : pyRange lo hi = [] := by
  unfold pyRange
  have h0 : (hi - lo).toNat = 0 := by omega
  rw [h0]
  rfl

lemma neighbourProductList_of_neg {cell : Cell} {r : Int} (hr : r < 0) :
    neighbourProductList cell r = [] := by
  unfold neighbourProductList
  rw [pyRange_of_le (by omega)]
  rfl

lemma get_neighbour_set_ok {cell : Cell} {r : Int} (hr : 0 ≤ r) :
    get_neighbour_set cell r =
      Except.ok ((neighbourProductList cell r).toFinset.erase cell) := by
  have hc : cell ∈ (neighbourProductList cell r).toFinset := by
    rw [List.mem_toFinset, mem_neighbourProductList]
    omega
  simp [get_neighbour_set, hc]

lemma get_neighbour_set_err {cell : Cell} {r : Int} (hr : r < 0) :
    get_neighbour_set cell r = Except.error "KeyError" := by
  simp [get_neighbour_set, neighbourProductList_of_neg hr]

lemma neighbourSet1_ok {cell : Cell} :
    get_neighbour_set cell = Except.ok (neighbourSet1 cell) :=
  get_neighbour_set_ok (by norm_num)

lemma mem_neighbourSet1 {cell p : Cell} :
    p ∈ neighbourSet1 cell ↔
      p ≠ cell ∧ cell.1 - 1 ≤ p.1 ∧ p.1 ≤ cell.1 + 1 ∧
        cell.2 - 1 ≤ p.2 ∧ p.2 ≤ cell.2 + 1 := by
  simp only [neighbourSet1, Finset.mem_erase, List.mem_toFinset, mem_neighbourProductList]

lemma neighbourSet1_comm {cell p : Cell} :
    p ∈ neighbourSet1 cell ↔ cell ∈ neighbourSet1 p := by
  rw [mem_neighbourSet1, mem_neighbourSet1]
  constructor <;> rintro ⟨h1, h2, h3, h4, h5⟩ <;>
    exact ⟨Ne.symm h1, by omega, by omega, by omega, by omega⟩

lemma neighbourList1_toFinset {cell : Cell} :
    (neighbourList1 cell).toFinset = neighbourSet1 cell := by
  ext p
  simp only [neighbourList1, neighbourSet1, List.mem_toFinset, List.mem_filter,
    Finset.mem_erase, decide_eq_true_eq]
  tauto

/-! ### The loops of `next_board_state` compute `next_board_state` -/

lemma birth_loop_eq (live : Finset Cell) (l : List Cell) (acc : Finset Cell) :
    birth_loop live l acc =
      Except.ok (acc ∪ l.toFinset.filter
        (fun nc => (neighbourSet1 nc ∩ live).card = 3)) := by
  induction l generalizing acc with
  | nil => simp [birth_loop]
  | cons nc rest ih =>
    simp only [birth_loop, neighbourSet1_ok]
    rw [ih, Except.ok.injEq]
    by_cases h : (neighbourSet1 nc ∩ live).card = 3
    · simp [h, List.toFinset_cons, Finset.filter_insert, Finset.insert_union,
        Finset.union_insert]
    · simp [h, List.toFinset_cons, Finset.filter_insert]

lemma union_shuffle_ins (acc q f b : Finset Cell) (c : Cell) :
    (insert c acc ∪ q) ∪ (f ∪ b) = acc ∪ (insert c f ∪ (q ∪ b)) := by
  ext p
  simp only [Finset.mem_union, Finset.mem_insert]
  tauto

lemma union_shuffle (acc q f b : Finset Cell) :
    (acc ∪ q) ∪ (f ∪ b) = acc ∪ (f ∪ (q ∪ b)) := by
  ext p
  simp only [Finset.mem_union]
  tauto

lemma next_board_state_loop_eq (live : Finset Cell) (l : List Cell)
    (acc : Finset Cell) :
    next_board_state_loop live l acc =
      Except.ok (acc ∪
        (l.toFinset.filter
            (fun live_cell => (neighbourSet1 live_cell ∩ live).card ∈ [2, 3])
          ∪ l.toFinset.biUnion
            (fun live_cell =>
              (neighbourSet1 live_cell).filter
                (fun nc => (neighbourSet1 nc ∩ live).card = 3)))) := by
  induction l generalizing acc with
  | nil => simp [next_board_state_loop]
  | cons c rest ih =>
    simp only [next_board_state_loop, neighbourSet1_ok, birth_loop_eq]
    rw [ih, neighbourList1_toFinset, Except.ok.injEq]
    by_cases h : (neighbourSet1 c ∩ live).card ∈ [2, 3]
    · rw [if_pos h, List.toFinset_cons, Finset.filter_insert, Finset.biUnion_insert,
        if_pos h]
      exact union_shuffle_ins _ _ _ _ _
    · rw [if_neg h, List.toFinset_cons, Finset.filter_insert, Finset.biUnion_insert,
        if_neg h]
      exact union_shuffle _ _ _ _

lemma next_board_state_iter_eq (l : List Cell) :
    next_board_state_iter l = Except.ok (next_board_state l.toFinset) := by
  unfold next_board_state_iter
  rw [next_board_state_loop_eq, Finset.empty_union]
  rfl

/-! ### Membership in `next_board_state` -/

lemma mem_next_board_state {live : Finset Cell} {c : Cell} :
    c ∈ next_board_state live ↔
      (c ∈ live ∧
          ((neighbourSet1 c ∩ live).card = 2 ∨ (neighbourSet1 c ∩ live).card = 3)) ∨
        (neighbourSet1 c ∩ live).card = 3 := by
  unfold next_board_state
  simp only [Finset.mem_union, Finset.mem_filter, Finset.mem_biUnion, List.mem_cons,
    List.mem_singleton, List.not_mem_nil, or_false]
  constructor
  · rintro (⟨hc, hcard⟩ | ⟨lc, hlc, hmem, hcard⟩)
    · exact Or.inl ⟨hc, hcard⟩
    · exact Or.inr hcard
  · rintro (⟨hc, hcard⟩ | hcard)
    · exact Or.inl ⟨hc, hcard⟩
    · have hpos : 0 < (neighbourSet1 c ∩ live).card := by omega
      obtain ⟨lc, hlc⟩ := Finset.card_pos.mp hpos
      rw [Finset.mem_inter] at hlc
      exact Or.inr ⟨lc, hlc.2, neighbourSet1_comm.mp hlc.1, hcard⟩

/-- The number of cells of `live` in the radius-1 Moore neighbourhood of `c`,
as the spec words it: cells of `live` distinct from `c` and within Chebyshev
distance 1 of `c`. -/
def specNeighbourCount (live : Finset Cell) (c : Cell) : ℕ :=
  (live.filter
      (fun l => l ≠ c ∧ (l.1 - c.1).natAbs ≤ 1 ∧ (l.2 - c.2).natAbs ≤ 1)).card

lemma specNeighbourCount_eq (live : Finset Cell) (c : Cell) :
    specNeighbourCount live c = (neighbourSet1 c ∩ live).card := by
  unfold specNeighbourCount
  congr 1
  ext p
  rw [Finset.mem_filter, Finset.mem_inter, mem_neighbourSet1]
  constructor
  · rintro ⟨hl, hne, h1, h2⟩
    exact ⟨⟨hne, by omega, by omega, by omega, by omega⟩, hl⟩
  · rintro ⟨⟨hne, h1, h2, h3, h4⟩, hl⟩
    exact ⟨hl, hne, by omega, by omega⟩

/-! ### Size of the neighbour set -/

lemma pyRange_nodup (lo hi : Int) : (pyRange lo hi).Nodup := by
  unfold pyRange
  refine List.Nodup.map ?_ (List.nodup_range _)
  intro i j hij
  have h2 : lo + (i : Int) = lo + (j : Int) := hij
  omega

lemma pyRange_length (lo hi : Int) : (pyRange lo hi).length = (hi - lo).toNat := by
  unfold pyRange
  rw [List.length_map, List.length_range]

lemma listProd_nodup {xs ys : List Int} (hx : xs.Nodup) (hy : ys.Nodup) :
    (listProd xs ys).Nodup := by
  rw [listProd_eq_product]
  exact hx.product hy

lemma listProd_length (xs ys : List Int) :
    (listProd xs ys).length = xs.length * ys.length := by
  rw [listProd_eq_product]
  exact List.length_product xs ys

lemma neighbourProductList_nodup (cell : Cell) (r : Int) :
    (neighbourProductList cell r).Nodup := by
  unfold neighbourProductList
  refine listProd_nodup ?_ ?_ <;>
    exact List.Nodup.map (add_right_injective _) (pyRange_nodup _ _)

lemma neighbourProductList_length (cell : Cell) (r : Int) :
    (neighbourProductList cell r).length =
      (r + 1 - -r).toNat * (r + 1 - -r).toNat := by
  unfold neighbourProductList
  rw [listProd_length, List.length_map, List.length_map, pyRange_length]

/-! ### Concrete patterns named by the spec -/

/-- The 2×2 block still life. -/
def block : Finset Cell :=
  {((0:Int),(0:Int)), ((1:Int),(0:Int)), ((0:Int),(1:Int)), ((1:Int),(1:Int))}

/-- The horizontal blinker triple. -/
def blinkerH : Finset Cell :=
  {((0:Int),(0:Int)), ((1:Int),(0:Int)), ((2:Int),(0:Int))}

/-- The vertical blinker triple. -/
def blinkerV : Finset Cell :=
  {((1:Int),(-1:Int)), ((1:Int),(0:Int)), ((1:Int),(1:Int))}

/-- The standard 5-cell glider. -/
def glider : Finset Cell :=
  {((1:Int),(0:Int)), ((2:Int),(1:Int)), ((0:Int),(2:Int)), ((1:Int),(2:Int)),
    ((2:Int),(2:Int))}

/-! ### The claims -/

/-- C1: for every finite set `live` of cells, `next_board_state live` contains
a cell `c` iff either `c` is live with exactly 2 or 3 of the cells of `live`
in its radius-1 Moore neighbourhood, or `c` is dead with exactly 3 cells of
`live` in its radius-1 Moore neighbourhood. -/
theorem next_board_state_rule (live : Finset Cell) (c : Cell) :
    c ∈ next_board_state live ↔
      ((c ∈ live ∧
          (specNeighbourCount live c = 2 ∨ specNeighbourCount live c = 3)) ∨
        (c ∉ live ∧ specNeighbourCount live c = 3)) := by
  rw [mem_next_board_state, specNeighbourCount_eq]
  constructor
  · rintro (⟨hc, h⟩ | h3)
    · exact Or.inl ⟨hc, h⟩
    · by_cases hc : c ∈ live
      · exact Or.inl ⟨hc, Or.inr h3⟩
      · exact Or.inr ⟨hc, h3⟩
  · rintro (⟨hc, h⟩ | ⟨hc, h3⟩)
    · exact Or.inl ⟨hc, h⟩
    · exact Or.inr h3

/-- C10: every cell of `next_board_state live` is either a cell of `live` or
lies within Chebyshev distance 1 of some cell of `live`. -/
theorem next_board_state_local (live : Finset Cell) (c : Cell)
    (hc : c ∈ next_board_state live) :
    c ∈ live ∨
      ∃ l ∈ live, (c.1 - l.1).natAbs ≤ 1 ∧ (c.2 - l.2).natAbs ≤ 1 := by
  rcases mem_next_board_state.mp hc with ⟨hl, _⟩ | h3
  · exact Or.inl hl
  · have hpos : 0 < (neighbourSet1 c ∩ live).card := by omega
    obtain ⟨l, hl⟩ := Finset.card_pos.mp hpos
    rw [Finset.mem_inter] at hl
    have hm := mem_neighbourSet1.mp hl.1
    exact Or.inr ⟨l, hl.2, by omega, by omega⟩

/-- Witness for C10 at the block and the cell (0, 0). -/
theorem next_board_state_local_witness :
    ((0:Int),(0:Int)) ∈ block ∨
      ∃ l ∈ block, ((((0:Int),(0:Int)) : Cell).1 - l.1).natAbs ≤ 1 ∧
        ((((0:Int),(0:Int)) : Cell).2 - l.2).natAbs ≤ 1 :=
  next_board_state_local block ((0:Int),(0:Int)) (by decide)

/-- C2: for radius ≥ 1, `get_neighbour_set` returns exactly the set of cells
`(cx + dx, cy + dy)` with `dx, dy ∈ [-radius, radius]` and
`(dx, dy) ≠ (0, 0)`, a set of `(2·radius + 1)² − 1` cells. -/
theorem get_neighbour_set_spec (cell : Cell) (radius : Int) (hr : 1 ≤ radius) :
    ∃ s : Finset Cell, get_neighbour_set cell radius = Except.ok s ∧
      (∀ p : Cell, p ∈ s ↔
        ∃ dx dy : Int, -radius ≤ dx ∧ dx ≤ radius ∧ -radius ≤ dy ∧ dy ≤ radius ∧
          ¬(dx = 0 ∧ dy = 0) ∧ p = (cell.1 + dx, cell.2 + dy)) ∧
      (s.card : Int) = (2 * radius + 1) ^ 2 - 1 := by
  have hc : cell ∈ (neighbourProductList cell radius).toFinset := by
    rw [List.mem_toFinset, mem_neighbourProductList]
    omega
  refine ⟨(neighbourProductList cell radius).toFinset.erase cell,
    get_neighbour_set_ok (by omega), ?_, ?_⟩
  · intro p
    rw [Finset.mem_erase, List.mem_toFinset, mem_neighbourProductList]
    constructor
    · rintro ⟨hne, h1, h2, h3, h4⟩
      refine ⟨p.1 - cell.1, p.2 - cell.2, by omega, by omega, by omega, by omega,
        ?_, ?_⟩
      · rintro ⟨hx, hy⟩
        exact hne (Prod.ext (by omega) (by omega))
      · exact Prod.ext (by dsimp only; omega) (by dsimp only; omega)
    · rintro ⟨dx, dy, hdx1, hdx2, hdy1, hdy2, hne, rfl⟩
      dsimp only
      refine ⟨?_, by omega, by omega, by omega, by omega⟩
      intro h
      have hx : cell.1 + dx = cell.1 := congrArg Prod.fst h
      have hy : cell.2 + dy = cell.2 := congrArg Prod.snd h
      exact hne ⟨by omega, by omega⟩
  · rw [Finset.card_erase_of_mem hc,
      List.toFinset_card_of_nodup (neighbourProductList_nodup cell radius),
      neighbourProductList_length]
    have ht : ((radius + 1 - -radius).toNat : Int) = 2 * radius + 1 := by omega
    have hge : 1 ≤ (radius + 1 - -radius).toNat := by omega
    have h1 : 1 ≤ (radius + 1 - -radius).toNat * (radius + 1 - -radius).toNat :=
      le_trans hge (Nat.le_mul_of_pos_right _ (by omega))
    rw [Nat.cast_sub h1]
    push_cast
    rw [ht]
    ring

/-- Witness for C2 at the cell (0, 0) and radius 1. -/
theorem get_neighbour_set_spec_witness :
    ∃ s : Finset Cell, get_neighbour_set ((0:Int),(0:Int)) 1 = Except.ok s ∧
      (∀ p : Cell, p ∈ s ↔
        ∃ dx dy : Int, -1 ≤ dx ∧ dx ≤ 1 ∧ -1 ≤ dy ∧ dy ≤ 1 ∧
          ¬(dx = 0 ∧ dy = 0) ∧
          p = ((((0:Int),(0:Int)) : Cell).1 + dx, (((0:Int),(0:Int)) : Cell).2 + dy)) ∧
      (s.card : Int) = (2 * 1 + 1) ^ 2 - 1 :=
  get_neighbour_set_spec ((0:Int),(0:Int)) 1 (by norm_num)

/-- C3 counterexample: radius 0 is below 1, yet `get_neighbour_set` succeeds
and returns the empty set instead of failing. -/
theorem get_neighbour_set_zero_succeeds :
    (0 : Int) < 1 ∧
      get_neighbour_set ((0:Int),(0:Int)) 0 = Except.ok (∅ : Finset Cell) := by
  refine ⟨by norm_num, ?_⟩
  rw [get_neighbour_set_ok (by norm_num), Except.ok.injEq]
  decide

/-- C3 amended: `get_neighbour_set` fails (with a `KeyError`, not an
InvalidArgument error) exactly for radius < 0; for every radius ≥ 0 — radius
0 included, and in particular every radius ≥ 1 — it returns a set. -/
theorem get_neighbour_set_failure_iff (cell : Cell) (radius : Int) :
    (radius < 0 → get_neighbour_set cell radius = Except.error "KeyError") ∧
      (0 ≤ radius → ∃ s : Finset Cell, get_neighbour_set cell radius = Except.ok s) :=
  ⟨fun h => get_neighbour_set_err h, fun h => ⟨_, get_neighbour_set_ok h⟩⟩

/-- Witness for the amended C3: radius -1 fails with `KeyError`, radius 0
succeeds. -/
theorem get_neighbour_set_failure_iff_witness :
    get_neighbour_set ((0:Int),(0:Int)) (-1) = Except.error "KeyError" ∧
      ∃ s : Finset Cell, get_neighbour_set ((0:Int),(0:Int)) 0 = Except.ok s :=
  ⟨(get_neighbour_set_failure_iff ((0:Int),(0:Int)) (-1)).1 (by norm_num),
    (get_neighbour_set_failure_iff ((0:Int),(0:Int)) 0).2 (by norm_num)⟩

/-- C9: `next_board_state` applied to the empty set returns the empty set. -/
theorem next_board_state_empty : next_board_state (∅ : Finset Cell) = ∅ := by
  decide

/-- C5: one generation takes the horizontal blinker triple to the vertical
triple, and a second generation takes the vertical triple back to the
horizontal one. -/
theorem blinker_period_two :
    next_board_state blinkerH = blinkerV ∧
      next_board_state blinkerV = blinkerH := by
  decide

/-- C6: the 2×2 block is a fixed point of `next_board_state`. -/
theorem block_fixed_point : next_board_state block = block := by
  decide

/-- C7: four generations translate the standard 5-cell glider by (+1, +1). -/
theorem glider_translation :
    next_board_state (next_board_state (next_board_state
        (next_board_state glider))) =
      glider.image (fun p => (p.1 + 1, p.2 + 1)) := by
  decide

/-- C4: `next_board_state` is total: run on any list of cells (any finite set
of integer-pair cells, in any iteration order) it returns a result set and
never an error. -/
theorem next_board_state_total (l : List Cell) :
    ∃ s : Finset Cell, next_board_state_iter l = Except.ok s :=
  ⟨next_board_state l.toFinset, next_board_state_iter_eq l⟩

/-- C8: `next_board_state` is order-independent: two runs whose input lists
have identical set membership produce identical results. -/
theorem next_board_state_order_independent (l₁ l₂ : List Cell)
    (h : l₁.toFinset = l₂.toFinset) :
    next_board_state_iter l₁ = next_board_state_iter l₂ := by
  rw [next_board_state_iter_eq, next_board_state_iter_eq, h]

/-- Witness for C8 on a two-element set inserted in both orders. -/
theorem next_board_state_order_independent_witness :
    next_board_state_iter [((0:Int),(0:Int)), ((1:Int),(0:Int))] =
      next_board_state_iter [((1:Int),(0:Int)), ((0:Int),(0:Int))] :=
  next_board_state_order_independent _ _ (by decide)

